import Mathlib

/-!
Shallow embedding of the netbackup backup orchestrator (marcopaganini/netbackup)
and proofs about its transports, orchestration and metrics writer.

The embedding models the Go sources under src/: the configuration record
(src/config/config.go), the transport command assembly and execution traces
(src/transports/*.go and the unnamed transport sources), the orchestrator
Backup.Run (src/backup.go) with Go defer semantics made explicit, and the
node-exporter metrics writer writeNodeTextFile (src/backup.go).

External effects are modelled as an explicit trace of events (process
executions, sleeps, file writes and removals); the outcomes of external
processes and the names handed out by the OS for temporary files are inputs
drawn from an environment record.
-/

namespace Netbackup

/-- Configuration record, from `Config` in src/config/config.go (the TOML
revision).  Field names follow the Go struct.  `CustomCmd` is the
`custom_cmd` key: the spec lists it for the custom transport and
CustomTransport reads `config.CustomCmd`, but the config revision in the
tree predates it, so the field itself is carried here as the spec and the
transport source describe it. -/
structure Config where
  Name : String
  SourceHost : String
  DestHost : String
  DestDev : String
  SourceDir : String
  DestDir : String
  ExpireDays : Int
  ExtraArgs : List String
  FSCleanup : Bool
  PreCommand : String
  SourceIsMountPoint : Bool
  PostCommand : String
  FailCommand : String
  Transport : String
  Exclude : List String
  Include : List String
  LogDir : String
  Logfile : String
  CustomBin : String
  PromTextFile : String
  LuksDestDev : String
  LuksKeyFile : String
  CustomCmd : String
  deriving Repr, DecidableEq

/-- Result of waiting on an external process, as seen through the error value
returned by `Execute.Exec` (src/README.md, package execute): `ok` is a nil
error, `exited code` an `exec.ExitError` carrying a wait status, and
`failed` any other failure (no recoverable exit status). -/
inductive ExecResult where
  | ok : ExecResult
  | exited (code : Nat) : ExecResult
  | failed : ExecResult
  deriving Repr, DecidableEq

/-- `execute.ExitCode` (src/README.md, package execute): nil maps to 0, an
exit error with a wait status to its code, anything else to 255. -/
def ExitCode : ExecResult → Nat
  | .ok => 0
  | .exited code => code
  | .failed => 255

/-- Externally observable actions of a run. `exec` is one invocation of the
process executor (`execute.Run` / `execute.RunCommand` / `Executor.Exec`)
with its log tag and argument vector, `sleep` a `time.Sleep` in seconds,
`writeFile` the creation of a temporary file with the given contents, and
`remove` an `os.Remove`. -/
inductive Event where
  | exec (tag : String) (argv : List String) : Event
  | sleep (seconds : Nat) : Event
  | writeFile (path : String) (content : String) : Event
  | remove (path : String) : Event
  deriving Repr, DecidableEq

/-- True for process-spawning events. -/
def Event.isExec : Event → Bool
  | .exec _ _ => true
  | _ => false

/-- `execute.WithShell` (src/README.md, package execute): wraps a string
command for the shell; `shellEnv` is the value of the SHELL environment
variable, with `/bin/sh` as the default when it is empty. -/
def withShell (shellEnv : String) (cmd : String) : List String :=
  let shell := if shellEnv = "" then "/bin/sh" else shellEnv
  [shell, "-c", "--", cmd]

/-- Splits a character list on a separator character; mirrors Go
`strings.Split` with a single-character separator (adjacent separators
produce empty fields, and the result is never empty). -/
def splitOnChar (sep : Char) : List Char → List (List Char)
  | [] => [[]]
  | ch :: rest =>
    let r := splitOnChar sep rest
    if ch = sep then
      [] :: r
    else
      match r with
      | [] => [[ch]]
      | h :: t => (ch :: h) :: t

/-- Go `strings.Split(s, " ")`, used to split `custom_bin` on whitespace. -/
def goSplitSpace (s : String) : List String :=
  (splitOnChar ' ' s.toList).map String.mk

/-- Go `strings.HasSuffix(s, "/")`. -/
def endsInSlash (s : String) : Bool :=
  s.toList.getLast? = some '/'

/-- Contents written by `writeList` (src/transports/transports.go): each
pattern on its own line (`fmt.Fprintln`). -/
def listContent (patterns : List String) : String :=
  String.join (patterns.map (fun p => p ++ "\n"))

/-- Modelled from the spec: `createFilterFile` (the combined rsync/rclone
filter-file builder invoked by the rsync and rclone transports; its body is
not under src/, only its callers and tests are).  Per the spec, each include
pattern is written as `+ <pattern>` and each exclude pattern as
`- <pattern>`, includes before excludes. -/
def filterContent (inc exc : List String) : String :=
  String.join (inc.map (fun p => "+ " ++ p ++ "\n")) ++
    String.join (exc.map (fun p => "- " ++ p ++ "\n"))

/-- `Transport.buildSource` with an explicit separator (the transports call
it with `":"`, rdiff-backup inlines `"::"`): `source_host + sep + source_dir`
when the host is set, else `source_dir` (src/transports/transports.go). -/
def buildSource (c : Config) (sep : String) : String :=
  if c.SourceHost ≠ "" then c.SourceHost ++ sep ++ c.SourceDir else c.SourceDir

/-- `Transport.buildDest`, analogous to `buildSource`
(src/transports/transports.go). -/
def buildDest (c : Config) (sep : String) : String :=
  if c.DestHost ≠ "" then c.DestHost ++ sep ++ c.DestDir else c.DestDir

/-- Environment a single transport run draws on: the temporary-file names the
OS hands out, the SHELL variable, and the outcome of the i-th process the
run spawns. -/
structure TransportEnv where
  excludeTmp : String
  includeTmp : String
  filterTmp : String
  shellEnv : String
  outcome : Nat → ExecResult

/-- `Transport.checkConfig` (src/transports/transports.go): SourceDir and
DestDir must be non-empty.  Used directly by the rclone constructor. -/
def baseCheckConfig (c : Config) : Option String :=
  if c.SourceDir = "" then some "Config error: SourceDir is empty"
  else if c.DestDir = "" then some "Config error: DestDir is empty"
  else none

/-- `RsyncTransport.checkConfig` / `RdiffBackupTransport.checkConfig`
(src/unnamed/part_008, src/transports/rdiff_backup.go): SourceDir and
DestDir non-empty, and not both hosts set. -/
def hostCheckConfig (c : Config) : Option String :=
  if c.SourceDir = "" then some "Config error: SourceDir is empty"
  else if c.DestDir = "" then some "Config error: DestDir is empty"
  else if c.SourceHost ≠ "" ∧ c.DestHost ≠ "" then
    some "Config error: Cannot have source & dest host set"
  else none

/-- `ResticTransport.checkConfig` (src/transports/restic.go): SourceDir and
DestDir non-empty, no include list, no source host (push mode only). -/
def resticCheckConfig (c : Config) : Option String :=
  if c.SourceDir = "" then some "config error: SourceDir is empty"
  else if c.DestDir = "" then some "config error: DestDir is empty"
  else if c.Include ≠ [] then
    some "config error: Include is not supported by restic transport"
  else if c.SourceHost ≠ "" then
    some "config error: Cannot have source host set (push mode only)"
  else none

/-- `CustomTransport.checkConfig` (src/unnamed/part_007): CustomCmd must be
non-empty. -/
def customCheckConfig (c : Config) : Option String :=
  if c.CustomCmd = "" then some "config error: CustomCmd is empty" else none

/-- `NewRcloneTransport` (src/transports/rclone.go) validates via the shared
`Transport.checkConfig` only; construction fails exactly when that check
fails. -/
def newRcloneTransportErr (c : Config) : Option String :=
  baseCheckConfig c

/-- The argument vector assembled by `RcloneTransport.Run`
(src/transports/rclone.go): executable (or custom_bin split on spaces);
`sync -v`; `--filter-from=<filter file>` when either pattern list is
non-empty; extra_args; source; destination (separator `":"`). -/
def rcloneCmd (c : Config) (filterFile : String) : List String :=
  let cmd := if c.CustomBin ≠ "" then goSplitSpace c.CustomBin else ["rclone"]
  let cmd := cmd ++ ["sync", "-v"]
  let cmd := if c.Exclude ≠ [] ∨ c.Include ≠ [] then
    cmd ++ ["--filter-from=" ++ filterFile] else cmd
  cmd ++ c.ExtraArgs ++ [buildSource c ":", buildDest c ":"]

/-- Trace and result of `RcloneTransport.Run` (src/transports/rclone.go).
The filter file is created (and scheduled for removal) before the dry-run
check; the executor runs only when dryRun is false. -/
def rcloneRun (c : Config) (dryRun : Bool) (env : TransportEnv) :
    List Event × Option ExecResult :=
  let hasFilter := c.Exclude ≠ [] ∨ c.Include ≠ []
  let fileEvs := if hasFilter then
    [Event.writeFile env.filterTmp (filterContent c.Include c.Exclude)] else []
  let remEvs := if hasFilter then [Event.remove env.filterTmp] else []
  if dryRun then (fileEvs ++ remEvs, none)
  else
    (fileEvs ++ [Event.exec "RCLONE" (rcloneCmd c env.filterTmp)] ++ remEvs,
     if env.outcome 0 = .ok then none else some (env.outcome 0))

/-- The argument vector assembled by `RsyncTransport.Run`
(src/unnamed/part_008): executable tokens; `-avAXH --delete --numeric-ids`;
`--filter=merge <file>` when a pattern list is non-empty;
`--delete-excluded` when excludes exist; extra_args; source with a trailing
`/` appended unless already present; destination. -/
def rsyncCmd (c : Config) (filterFile : String) : List String :=
  let cmd := if c.CustomBin ≠ "" then goSplitSpace c.CustomBin else ["rsync"]
  let cmd := cmd ++ ["-avAXH", "--delete", "--numeric-ids"]
  let cmd := if c.Include ≠ [] ∨ c.Exclude ≠ [] then
    cmd ++ ["--filter=merge " ++ filterFile] else cmd
  let cmd := if c.Exclude ≠ [] then cmd ++ ["--delete-excluded"] else cmd
  let cmd := cmd ++ c.ExtraArgs
  let src := buildSource c ":"
  let src := if endsInSlash src then src else src ++ "/"
  cmd ++ [src, buildDest c ":"]

/-- Trace and result of `RsyncTransport.Run` (src/unnamed/part_008).  After
running the command, an exit code of 24 ("some files disappeared during
transfer") is rewritten to success; every other failure is returned
unchanged. -/
def rsyncRun (c : Config) (dryRun : Bool) (env : TransportEnv) :
    List Event × Option ExecResult :=
  let hasFilter := c.Include ≠ [] ∨ c.Exclude ≠ []
  let fileEvs := if hasFilter then
    [Event.writeFile env.filterTmp (filterContent c.Include c.Exclude)] else []
  let remEvs := if hasFilter then [Event.remove env.filterTmp] else []
  if dryRun then (fileEvs ++ remEvs, none)
  else
    let r := env.outcome 0
    let res := if r = .ok then none
      else if ExitCode r = 24 then none
      else some r
    (fileEvs ++ [Event.exec "RSYNC" (rsyncCmd c env.filterTmp)] ++ remEvs, res)

/-- The main backup argument vector assembled by `ResticTransport.Run`
(src/transports/restic.go).  NOTE, faithful to the source: the short
variable declaration `excludeFile, err := writeList(ctx, "exclude", ...)`
inside the `if` block shadows the outer `var excludeFile string`, so the
`--exclude-file=` flag below reads the outer variable, which is still the
empty string; the path returned by writeList is only used by the deferred
`os.Remove`. -/
def resticMainCmd (c : Config) : List String :=
  let excludeFile : String := ""
  let resticBin := if c.CustomBin ≠ "" then c.CustomBin else "restic"
  let cmd := goSplitSpace resticBin
  let cmd := cmd ++ ["-v", "-v"]
  let cmd := if c.Exclude ≠ [] then cmd ++ ["--exclude-file=" ++ excludeFile] else cmd
  let cmd := cmd ++ c.ExtraArgs
  let cmd := cmd ++ ["--repo", buildDest c ":"]
  cmd ++ ["backup", c.SourceDir]

/-- The ordered command chain of `ResticTransport.Run`
(src/transports/restic.go): the main backup command, followed — when
`ExpireDays` is non-zero — by a second command built by appending
`forget --keep-within=<N>d --prune` to the main command vector. -/
def resticCmds (c : Config) : List (List String) :=
  if c.ExpireDays ≠ 0 then
    [resticMainCmd c,
     resticMainCmd c ++
       ["forget", "--keep-within=" ++ toString c.ExpireDays ++ "d", "--prune"]]
  else [resticMainCmd c]

/-- Executes a command chain in order under a given tag, stopping at the
first failure (the `for _, c := range cmds` loop of `ResticTransport.Run`);
`i` is the index of the next spawn in the transport's environment. -/
def runChain (tag : String) (outcome : Nat → ExecResult) :
    List (List String) → Nat → List Event × Option ExecResult
  | [], _ => ([], none)
  | cmd :: rest, i =>
    if outcome i = .ok then
      let r := runChain tag outcome rest (i + 1)
      (Event.exec tag cmd :: r.1, r.2)
    else ([Event.exec tag cmd], some (outcome i))

/-- Trace and result of `ResticTransport.Run` (src/transports/restic.go):
write the exclude list to a temporary file when non-empty (removed again on
exit), then — unless dry-run — execute the command chain, stopping at the
first failure. -/
def resticRun (c : Config) (dryRun : Bool) (env : TransportEnv) :
    List Event × Option ExecResult :=
  let fileEvs := if c.Exclude ≠ [] then
    [Event.writeFile env.excludeTmp (listContent c.Exclude)] else []
  let remEvs := if c.Exclude ≠ [] then [Event.remove env.excludeTmp] else []
  if dryRun then (fileEvs ++ remEvs, none)
  else
    let r := runChain "RESTIC" env.outcome (resticCmds c) 0
    (fileEvs ++ r.1 ++ remEvs, r.2)

/-- The argument vector assembled by `RdiffBackupTransport.Run`
(src/transports/rdiff_backup.go).  The source applies `absPaths` (defined
outside the tree) to the pattern lists before writing them; the file paths
appear in the flags exactly when the corresponding list is non-empty. -/
def rdiffCmd (c : Config) (excludeFile includeFile : String) : List String :=
  let cmd := ["rdiff-backup", "--verbosity=5", "--terminal-verbosity=5",
    "--preserve-numerical-ids", "--exclude-sockets",
    "--exclude-other-filesystems", "--force"]
  let cmd := if c.Exclude ≠ [] then
    cmd ++ ["--exclude-globbing-filelist=" ++ excludeFile] else cmd
  let cmd := if c.Include ≠ [] then
    cmd ++ ["--include-globbing-filelist=" ++ includeFile] else cmd
  let cmd := cmd ++ c.ExtraArgs
  let src := if c.SourceHost ≠ "" then c.SourceHost ++ "::" ++ c.SourceDir
    else c.SourceDir
  let dst := if c.DestHost ≠ "" then c.DestHost ++ "::" ++ c.DestDir
    else c.DestDir
  cmd ++ [src, dst]

/-- The expiration command of `RdiffBackupTransport.Run`
(src/transports/rdiff_backup.go): `--remove-older-than=<N>D --force <dst>`. -/
def rdiffExpireCmd (c : Config) : List String :=
  let dst := if c.DestHost ≠ "" then c.DestHost ++ "::" ++ c.DestDir
    else c.DestDir
  ["rdiff-backup", "--remove-older-than=" ++ toString c.ExpireDays ++ "D",
   "--force", dst]

/-- Trace and result of `RdiffBackupTransport.Run`
(src/transports/rdiff_backup.go).  Pattern files are written before the
dry-run check inside `runCmd`; the deferred removes always run (with an
empty path when no file was created, as in the source, where the unset
field is the empty string).  The expiration command runs only after the
main command succeeded and when the expiration setting is non-zero. -/
def rdiffRun (c : Config) (dryRun : Bool) (env : TransportEnv) :
    List Event × Option ExecResult :=
  let exEvs := if c.Exclude ≠ [] then
    [Event.writeFile env.excludeTmp (listContent c.Exclude)] else []
  let inEvs := if c.Include ≠ [] then
    [Event.writeFile env.includeTmp (listContent c.Include)] else []
  let remEvs := [Event.remove (if c.Include ≠ [] then env.includeTmp else ""),
    Event.remove (if c.Exclude ≠ [] then env.excludeTmp else "")]
  if dryRun then (exEvs ++ inEvs ++ remEvs, none)
  else
    let cmd1 := Event.exec "RDIFF-BACKUP" (rdiffCmd c env.excludeTmp env.includeTmp)
    if env.outcome 0 ≠ .ok then
      (exEvs ++ inEvs ++ [cmd1] ++ remEvs, some (env.outcome 0))
    else if c.ExpireDays ≠ 0 then
      (exEvs ++ inEvs ++ [cmd1, Event.exec "RDIFF-BACKUP" (rdiffExpireCmd c)] ++ remEvs,
       if env.outcome 1 = .ok then none else some (env.outcome 1))
    else (exEvs ++ inEvs ++ [cmd1] ++ remEvs, none)

/-- Trace and result of `CustomTransport.Run` (src/unnamed/part_007): wrap
`CustomCmd` with the shell helper, log it, and — unless dry-run — invoke it
once under the tag CUSTOM. -/
def customRun (c : Config) (dryRun : Bool) (env : TransportEnv) :
    List Event × Option ExecResult :=
  let cmd := withShell env.shellEnv c.CustomCmd
  if dryRun then ([], none)
  else ([Event.exec "CUSTOM" cmd],
    if env.outcome 0 = .ok then none else some (env.outcome 0))

/-- Environment of one orchestrator run (src/backup.go): outcomes of the
preparation commands and hooks, the answers of the OS calls the orchestrator
makes, and the transport's own environment. -/
structure Env where
  isMountedResult : Option Bool
  statDevMapperExists : Bool
  luksOpenOutcome : ExecResult
  fsckOutcome : ExecResult
  tunefsOutcome : ExecResult
  mountOutcome : ExecResult
  mountTmpdir : String
  preOutcome : ExecResult
  postOutcome : ExecResult
  failOutcome : ExecResult
  te : TransportEnv

/-- The distinct failure outcomes of `Backup.Run` (src/backup.go), keeping
the error value that caused them where one exists. -/
inductive BackupErr where
  | mountCheckFailed : BackupErr
  | notMounted : BackupErr
  | luksMapperExists : BackupErr
  | luksOpenFailed (r : ExecResult) : BackupErr
  | fsCleanupFailed (r : ExecResult) : BackupErr
  | mountFailed (r : ExecResult) : BackupErr
  | unknownTransport (name : String) : BackupErr
  | transportCreateFailed (msg : String) : BackupErr
  | preFailed (r : ExecResult) : BackupErr
  | backupFailed (r : ExecResult) : BackupErr
  | postFailed (r : ExecResult) : BackupErr
  deriving Repr, DecidableEq

/-- Output of one preparation step of `Backup.Run` (src/backup.go): the
events it emitted, the configuration as mutated so far, the teardown events
its deferred calls will contribute (listed in the order they will run, i.e.
reverse registration order), and its error, if any. -/
structure PrepOut where
  evs : List Event
  cfg : Config
  td : List Event
  err : Option BackupErr

/-- The mapper path `filepath.Join(devMapperDir, "netbackup_" + name)` used
by `Backup.openLuks` (src/backup.go). -/
def luksDevfile (c : Config) : String :=
  "/dev/mapper/" ++ ("netbackup_" ++ c.Name)

/-- The teardown the LUKS block of `Backup.Run` registers (src/backup.go):
`defer closeLuks` then `defer time.Sleep(2s)`, which run in reverse
registration order — the sleep, then `cryptsetup luksClose` on the mapper
path (DestDev holds the mapper path by then). -/
def luksTeardown (c : Config) : List Event :=
  [Event.sleep 2,
   Event.exec "LUKS_CLOSE" ["cryptsetup", "luksClose", luksDevfile c]]

/-- The teardown the mount block of `Backup.Run` registers (src/backup.go):
`defer os.Remove(DestDir)`, `defer umountDev`, `defer time.Sleep(2s)`,
which run in reverse registration order — the sleep, `umount <DestDev>`,
then removal of the temporary mount directory. -/
def mountTeardown (destDev tmpdir : String) : List Event :=
  [Event.sleep 2, Event.exec "UMOUNT" ["umount", destDev], Event.remove tmpdir]

/-- `Backup.openLuks` plus its caller in `Backup.Run` (src/backup.go): fail
if the mapper node already exists, else run `cryptsetup
[--key-file=<key>] luksOpen <luks_dest_dev> netbackup_<name>`; on success
DestDev becomes the mapper path and the deferred `closeLuks` preceded by a
deferred 2-second sleep are registered. -/
def luksStep (c : Config) (env : Env) : PrepOut :=
  if c.LuksDestDev = "" then ⟨[], c, [], none⟩
  else if env.statDevMapperExists then ⟨[], c, [], some .luksMapperExists⟩
  else
    let devname := "netbackup_" ++ c.Name
    let cmd := (if c.LuksKeyFile ≠ "" then
        ["cryptsetup", "--key-file=" ++ c.LuksKeyFile] else ["cryptsetup"]) ++
      ["luksOpen", c.LuksDestDev, devname]
    if env.luksOpenOutcome = .ok then
      ⟨[Event.exec "LUKS_OPEN" cmd], { c with DestDev := luksDevfile c },
       luksTeardown c, none⟩
    else ⟨[Event.exec "LUKS_OPEN" cmd], c, [], some (.luksOpenFailed env.luksOpenOutcome)⟩

/-- `Backup.cleanFilesystem` plus its caller (src/backup.go): `fsck -n`
followed by `tune2fs -C 0 -T now`, both under tag FS_CLEANUP; the first
failure aborts. -/
def fsStep (c : Config) (env : Env) : List Event × Option BackupErr :=
  if ¬ c.FSCleanup then ([], none)
  else
    let e1 := Event.exec "FS_CLEANUP" ["fsck", "-n", c.DestDev]
    if env.fsckOutcome ≠ .ok then ([e1], some (.fsCleanupFailed env.fsckOutcome))
    else
      let e2 := Event.exec "FS_CLEANUP" ["tune2fs", "-C", "0", "-T", "now", c.DestDev]
      if env.tunefsOutcome ≠ .ok then ([e1, e2], some (.fsCleanupFailed env.tunefsOutcome))
      else ([e1, e2], none)

/-- `Backup.mountDev` plus its caller (src/backup.go): mount DestDev on a
fresh temporary directory; on success DestDir becomes that directory and
three deferred calls are registered (removal of the directory, `umountDev`,
and a 2-second sleep), which will run in reverse order. -/
def mountStep (c : Config) (env : Env) : PrepOut :=
  if c.DestDev = "" then ⟨[], c, [], none⟩
  else
    let tmpdir := env.mountTmpdir
    let ev := Event.exec "MOUNT" ["mount", c.DestDev, tmpdir]
    if env.mountOutcome = .ok then
      ⟨[ev], { c with DestDir := tmpdir }, mountTeardown c.DestDev tmpdir, none⟩
    else ⟨[ev], c, [], some (.mountFailed env.mountOutcome)⟩

/-- The non-dry-run preparation block of `Backup.Run` (src/backup.go):
source-mountpoint verification, LUKS open, filesystem cleanup, and mount,
each aborting the run on failure while keeping the teardowns registered so
far.  Teardowns registered by a later step run before those of an earlier
step (Go defer order). -/
def prepare (c : Config) (env : Env) : PrepOut :=
  if c.SourceIsMountPoint ∧ env.isMountedResult ≠ some true then
    ⟨[], c, [],
     some (if env.isMountedResult = none then BackupErr.mountCheckFailed
       else BackupErr.notMounted)⟩
  else
    let l := luksStep c env
    match l.err with
    | some e => ⟨l.evs, l.cfg, l.td, some e⟩
    | none =>
      let f := fsStep l.cfg env
      match f.2 with
      | some e => ⟨l.evs ++ f.1, l.cfg, l.td, some e⟩
      | none =>
        let m := mountStep l.cfg env
        ⟨l.evs ++ f.1 ++ m.evs, m.cfg, m.td ++ l.td, m.err⟩

/-- The transport names `Backup.Run` dispatches on.  The first four cases
are the switch in src/backup.go; the `custom` case is modelled from the
spec (the orchestrator revision dispatching to the custom transport is not
under src/, but CustomTransport itself is). -/
def knownTransport (c : Config) : Bool :=
  c.Transport = "rclone" ∨ c.Transport = "rdiff-backup" ∨
    c.Transport = "restic" ∨ c.Transport = "rsync" ∨ c.Transport = "custom"

/-- Construction-time validation performed by the `New*Transport`
constructor selected by the dispatch (each constructor only stores its
arguments and runs its checkConfig). -/
def newTransportErr (c : Config) : Option String :=
  if c.Transport = "rclone" then newRcloneTransportErr c
  else if c.Transport = "rdiff-backup" then hostCheckConfig c
  else if c.Transport = "restic" then resticCheckConfig c
  else if c.Transport = "rsync" then hostCheckConfig c
  else if c.Transport = "custom" then customCheckConfig c
  else none

/-- `transp.Run(ctx)` for the transport selected by the dispatch of
`Backup.Run`. -/
def transportRun (c : Config) (dryRun : Bool) (env : TransportEnv) :
    List Event × Option ExecResult :=
  if c.Transport = "rclone" then rcloneRun c dryRun env
  else if c.Transport = "rdiff-backup" then rdiffRun c dryRun env
  else if c.Transport = "restic" then resticRun c dryRun env
  else if c.Transport = "rsync" then rsyncRun c dryRun env
  else if c.Transport = "custom" then customRun c dryRun env
  else ([], none)

/-- Modelled from the spec: the fail-hook step of the orchestrator.  The
orchestrator revision in the tree predates it (src/config/config.go
declares `fail_command` but src/backup.go does not yet run it); per the
spec, when the transport fails and `fail_command` is set, the hook runs
through the shell, its own failure being logged only. -/
def failHookEvents (c : Config) (shellEnv : String) : List Event :=
  if c.FailCommand ≠ "" then [Event.exec "FAIL" (withShell shellEnv c.FailCommand)]
  else []

/-- The dry-run placeholder hack at the top of `Backup.Run` (src/backup.go):
in dry-run mode, a LUKS destination gets a dummy DestDev and a device
destination a dummy DestDir, so argument assembly still logs a
representative command. -/
def dryRunPlaceholders (c0 : Config) (dryRun : Bool) : Config :=
  let c1 := if dryRun ∧ c0.LuksDestDev ≠ "" then
    { c0 with DestDev := "dummy_dest_dev" } else c0
  if dryRun ∧ c1.DestDev ≠ "" then
    { c1 with DestDir := "dummy_dest_dir" } else c1

/-- The transport and hook phase of `Backup.Run` (src/backup.go): transport
selection and construction, pre-hook, `transp.Run(ctx)`, and the post-hook
on success or the fail-hook on failure (the latter modelled from the spec,
see `failHookEvents`).  `pevs` are the events of the preparation block and
`td` its registered teardowns, which run at the end of every exit path. -/
def hookAndTransportPhase (c : Config) (dryRun : Bool) (env : Env)
    (pevs td : List Event) : List Event × Option BackupErr :=
  if ¬ knownTransport c then
    (pevs ++ td, some (.unknownTransport c.Transport))
  else match newTransportErr c with
  | some msg => (pevs ++ td, some (.transportCreateFailed msg))
  | none =>
    let preEvs := if c.PreCommand ≠ "" ∧ ¬ dryRun then
      [Event.exec "PRE" (withShell env.te.shellEnv c.PreCommand)] else []
    if c.PreCommand ≠ "" ∧ ¬ dryRun ∧ env.preOutcome ≠ .ok then
      (pevs ++ preEvs ++ td, some (.preFailed env.preOutcome))
    else
      let t := transportRun c dryRun env.te
      match t.2 with
      | some r =>
        (pevs ++ preEvs ++ t.1 ++ failHookEvents c env.te.shellEnv ++ td,
         some (.backupFailed r))
      | none =>
        if c.PostCommand ≠ "" ∧ ¬ dryRun then
          let postEv := [Event.exec "POST" (withShell env.te.shellEnv c.PostCommand)]
          if env.postOutcome = .ok then (pevs ++ preEvs ++ t.1 ++ postEv ++ td, none)
          else (pevs ++ preEvs ++ t.1 ++ postEv ++ td,
            some (.postFailed env.postOutcome))
        else (pevs ++ preEvs ++ t.1 ++ td, none)

/-- Trace and result of `Backup.Run` (src/backup.go), with the fail-hook
step and the `custom` dispatch case modelled from the spec (see
`failHookEvents` and `knownTransport`).  The run applies the dry-run
placeholder hack, performs the preparation block unless dry-run, and
continues with the transport and hook phase; the deferred teardowns run at
the end of every exit path taken after their registration. -/
def backupRun (c0 : Config) (dryRun : Bool) (env : Env) :
    List Event × Option BackupErr :=
  let c2 := dryRunPlaceholders c0 dryRun
  let p := if dryRun then PrepOut.mk [] c2 [] none else prepare c2 env
  match p.err with
  | some e => (p.evs ++ p.td, some e)
  | none => hookAndTransportPhase p.cfg dryRun env p.evs p.td

/-! ## The node-exporter metrics writer (`writeNodeTextFile`, src/backup.go)

The pure core of the writer: the transformation from the previous file
contents to the new contents.  The surrounding I/O protocol (flock on the
sidecar lock file, write to a fresh temporary file, atomic rename) is the
part that makes a call a *successful atomic write* of exactly this
transformation. -/

/-- RE2 character class `\s` (Go regexp): space, tab, newline, form feed,
carriage return. -/
def isGoWS (ch : Char) : Bool :=
  ch = ' ' ∨ ch = '\t' ∨ ch = '\n' ∨ ch = '\x0c' ∨ ch = '\r'

/-- Strips an exact literal from the front of a character list. -/
def dropLit : List Char → List Char → Option (List Char)
  | [], l => some l
  | _ :: _, [] => none
  | p :: ps, x :: xs => if p = x then dropLit ps xs else none

/-- Substring search: does `p` occur contiguously inside `l`? -/
def hasSub (p l : List Char) : Bool :=
  l.tails.any (fun t => p.isPrefixOf t)

/-- One anchored step of the regular expression
`backup[\s]*\x7b.*name="<name>".*` compiled by `writeNodeTextFile`
(src/backup.go): at this position the literal `backup`, then any run of
whitespace, then `\x7b`, then — anywhere in the rest of the line (`.*`) —
the literal `name="<name>"`.  Exact for names free of regex
metacharacters, which the theorems below assume (alphanumeric names). -/
def matchFrom (name : String) (l : List Char) : Bool :=
  match dropLit "backup".toList l with
  | none => false
  | some r1 =>
    match r1.dropWhile isGoWS with
    | [] => false
    | ch :: r3 => ch = '\x7b' && hasSub ("name=\"" ++ name ++ "\"").toList r3

/-- Unanchored match of the compiled regular expression against a line
(`regexp.Match` searches at every position). -/
def lineMatchesL (name : String) (l : List Char) : Bool :=
  l.tails.any (fun t => matchFrom name t)

/-- String form of `lineMatchesL`. -/
def lineMatches (name line : String) : Bool :=
  lineMatchesL name line.toList

/-- The record `writeNodeTextFile` appends (src/backup.go), without its
trailing newline: `backup\x7bname="<name>", job="netbackup",
status="success"\x7d <unix-seconds>` (Go `%q` of a name without characters
needing escapes is plain quoting). -/
def nodeRecord (name : String) (now : Nat) : String :=
  "backup\x7bname=\"" ++ name ++ "\", job=\"netbackup\", status=\"success\"\x7d " ++
    toString now

/-- The content transformation of `writeNodeTextFile` (src/backup.go): split
the previous contents on newlines (`bytes.Split`), drop empty fragments and
every line matching the name's regular expression, keep the rest (each
re-terminated with a newline), and append the fresh record with the current
Unix time. -/
def writeNodeTextFile (data name : String) (now : Nat) : String :=
  let kept := (splitOnChar '\n' data.toList).filter
    (fun l => !l.isEmpty && !lineMatchesL name l)
  String.mk ((kept.map (fun l => l ++ ['\n'])).flatten ++
    ((nodeRecord name now).toList ++ ['\n']))

/-- The lines of a text file: the newline-split fragments, except that the
empty fragment after a terminating final newline is not a line. -/
def fileLinesL (l : List Char) : List (List Char) :=
  let ps := splitOnChar '\n' l
  if ps.getLast? = some [] then ps.dropLast else ps

/-- String form of `fileLinesL`. -/
def fileLines (s : String) : List String :=
  (fileLinesL s.toList).map String.mk

/-! ## Concrete configurations and environments used by witnesses -/

/-- A baseline configuration with every field empty or zero; the concrete
configurations below override individual fields. -/
def cfg0 : Config where
  Name := ""
  SourceHost := ""
  DestHost := ""
  DestDev := ""
  SourceDir := ""
  DestDir := ""
  ExpireDays := 0
  ExtraArgs := []
  FSCleanup := false
  PreCommand := ""
  SourceIsMountPoint := false
  PostCommand := ""
  FailCommand := ""
  Transport := ""
  Exclude := []
  Include := []
  LogDir := ""
  Logfile := ""
  CustomBin := ""
  PromTextFile := ""
  LuksDestDev := ""
  LuksKeyFile := ""
  CustomCmd := ""

/-- A transport environment where every spawned process succeeds. -/
def te0 : TransportEnv := ⟨"", "", "", "", fun _ => .ok⟩

/-! ## C10 — rclone construction errors -/

/-- C10: constructing the rclone transport returns an error if and only if
`source_dir` is empty or `dest_dir` is empty; the host fields play no role
in the check, so every combination of `source_host` and `dest_host` is
accepted at construction. -/
theorem rclone_construction_error_iff (c : Config) :
    (newRcloneTransportErr c ≠ none ↔ c.SourceDir = "" ∨ c.DestDir = "") ∧
    ∀ sh dh : String,
      newRcloneTransportErr { c with SourceHost := sh, DestHost := dh } =
        newRcloneTransportErr c := by
  constructor
  · unfold newRcloneTransportErr baseCheckConfig
    by_cases h1 : c.SourceDir = "" <;> by_cases h2 : c.DestDir = "" <;>
      simp [h1, h2]
  · intro sh dh
    rfl

/-! ## C5 — rsync exit-code 24 promotion -/

/-- C5: for an rsync run whose child exits with a given code, `Run` returns
no error exactly when that code is 24; every other exit code surfaces as a
failure. -/
theorem rsync_exit24_promoted (c : Config) (env : TransportEnv) (code : Nat)
    (h : env.outcome 0 = .exited code) :
    ((rsyncRun c false env).2 = none ↔ code = 24) := by
  unfold rsyncRun
  rcases Nat.decEq code 24 with h24 | h24
  · simp only [h, ExitCode]
    by_cases hc : code = 24
    · exact absurd hc h24
    · simp [hc]
  · simp [h, ExitCode, h24]

/-- A transport environment whose first spawned process exits with code 23. -/
def envExit23 : TransportEnv := ⟨"", "", "", "", fun _ => .exited 23⟩

/-- Witness for C5 at exit code 23: the run surfaces the failure. -/
theorem rsync_exit24_promoted_witness :
    ((rsyncRun cfg0 false envExit23).2 = none ↔ (23 : Nat) = 24) :=
  rsync_exit24_promoted cfg0 envExit23 23 rfl

/-! ## C3 — the custom transport -/

/-- C3: for every specification with transport `custom` and a non-empty
`custom_cmd`, the dispatch constructs the custom transport without error,
and its run wraps `custom_cmd` through the shell helper and invokes it
exactly once, under the tag CUSTOM. -/
theorem custom_transport_single_shell_invocation (c : Config) (env : TransportEnv)
    (ht : c.Transport = "custom") (hcmd : c.CustomCmd ≠ "") :
    newTransportErr c = none ∧
    (transportRun c false env).1 =
      [Event.exec "CUSTOM" (withShell env.shellEnv c.CustomCmd)] := by
  constructor
  · unfold newTransportErr customCheckConfig
    simp [ht, hcmd]
  · unfold transportRun customRun
    simp [ht]

/-- A specification selecting the custom transport. -/
def cfgCustom : Config :=
  { cfg0 with Transport := "custom", CustomCmd := "/usr/local/bin/mybackup --full" }

/-- A transport environment with SHELL set to /bin/bash. -/
def teBash : TransportEnv := ⟨"", "", "", "/bin/bash", fun _ => .ok⟩

/-- Witness for C3 at a concrete specification. -/
theorem custom_transport_single_shell_invocation_witness :
    newTransportErr cfgCustom = none ∧
    (transportRun cfgCustom false teBash).1 =
      [Event.exec "CUSTOM"
        ["/bin/bash", "-c", "--", "/usr/local/bin/mybackup --full"]] :=
  custom_transport_single_shell_invocation cfgCustom teBash rfl (by decide)

/-! ## C1 — the restic exclude-file flag -/

/-- A restic specification with a non-empty exclude list. -/
def cfgResticExclude : Config :=
  { cfg0 with
      Name := "x"
      Transport := "restic"
      SourceDir := "/tmp/a"
      DestDir := "/tmp/b"
      Exclude := ["x/foo"] }

/-- A transport environment where the OS hands out /tmp/exclude123 for the
exclude list temporary file. -/
def teExclude123 : TransportEnv := ⟨"/tmp/exclude123", "", "", "", fun _ => .ok⟩

/-- C1 (bug evaluation): with a non-empty exclude list, the exclude patterns
are written, one per line, into the temporary file the OS handed out, but
the argument vector carries the flag `--exclude-file=` with an *empty*
path: the short variable declaration in the Go source shadows the outer
`excludeFile`, so the written file's path never reaches the flag. -/
theorem restic_exclude_flag_empty_bug :
    (resticRun cfgResticExclude false teExclude123).1 =
      [Event.writeFile "/tmp/exclude123" "x/foo\n",
       Event.exec "RESTIC"
         ["restic", "-v", "-v", "--exclude-file=", "--repo", "/tmp/b",
          "backup", "/tmp/a"],
       Event.remove "/tmp/exclude123"] ∧
    "--exclude-file=/tmp/exclude123" ∉ resticMainCmd cfgResticExclude := by
  decide

/-! ## C9 — the restic expiration chain -/

/-- C9: with `expire_days` = N > 0, the restic transport's command chain is
exactly two commands — the main backup command first, then one whose final
tokens are `forget --keep-within=<N>d --prune` — and, in a non-dry run, the
second command is spawned exactly when the first one succeeded. -/
theorem restic_expire_two_command_chain (c : Config) (env : TransportEnv) (N : Int)
    (hN : c.ExpireDays = N) (hpos : 0 < N) :
    resticCmds c =
      [resticMainCmd c,
       resticMainCmd c ++
         ["forget", "--keep-within=" ++ toString N ++ "d", "--prune"]] ∧
    (env.outcome 0 = .ok →
      (resticRun c false env).1.filter Event.isExec =
        [Event.exec "RESTIC" (resticMainCmd c),
         Event.exec "RESTIC" (resticMainCmd c ++
           ["forget", "--keep-within=" ++ toString N ++ "d", "--prune"])]) ∧
    (env.outcome 0 ≠ .ok →
      (resticRun c false env).1.filter Event.isExec =
        [Event.exec "RESTIC" (resticMainCmd c)]) := by
  have hne : c.ExpireDays ≠ 0 := by rw [hN]; exact hpos.ne'
  have hcmds : resticCmds c =
      [resticMainCmd c,
       resticMainCmd c ++
         ["forget", "--keep-within=" ++ toString N ++ "d", "--prune"]] := by
    unfold resticCmds
    rw [if_pos hne, hN]
  refine ⟨hcmds, ?_, ?_⟩ <;> intro h <;> unfold resticRun <;> rw [hcmds] <;>
    by_cases h1 : env.outcome 1 = ExecResult.ok <;>
    by_cases hx : c.Exclude = [] <;>
    simp [runChain, h, h1, hx, Event.isExec, List.filter_append]

/-- A restic specification with expire_days = 7. -/
def cfgResticExpire : Config :=
  { cfg0 with
      Transport := "restic"
      SourceDir := "/tmp/a"
      DestDir := "/tmp/b"
      ExpireDays := 7 }

/-- Witness for C9: with expire_days = 7 and a successful first command,
both commands are spawned in order. -/
theorem restic_expire_two_command_chain_witness :
    (resticRun cfgResticExpire false te0).1.filter Event.isExec =
      [Event.exec "RESTIC" (resticMainCmd cfgResticExpire),
       Event.exec "RESTIC" (resticMainCmd cfgResticExpire ++
         ["forget", "--keep-within=7d", "--prune"])] :=
  (restic_expire_two_command_chain cfgResticExpire te0 7 rfl (by decide)).2.1 rfl

/-! ## C4 — dry-run spawns no process -/

lemma rcloneRun_dry (c : Config) (env : TransportEnv) :
    (rcloneRun c true env).2 = none ∧
    ∀ e ∈ (rcloneRun c true env).1, e.isExec = false := by
  unfold rcloneRun
  by_cases h : (c.Exclude ≠ [] ∨ c.Include ≠ []) <;>
    simp [h, Event.isExec]

lemma rsyncRun_dry (c : Config) (env : TransportEnv) :
    (rsyncRun c true env).2 = none ∧
    ∀ e ∈ (rsyncRun c true env).1, e.isExec = false := by
  unfold rsyncRun
  by_cases h : (c.Include ≠ [] ∨ c.Exclude ≠ []) <;>
    simp [h, Event.isExec]

lemma resticRun_dry (c : Config) (env : TransportEnv) :
    (resticRun c true env).2 = none ∧
    ∀ e ∈ (resticRun c true env).1, e.isExec = false := by
  unfold resticRun
  by_cases h : c.Exclude ≠ [] <;>
    simp [h, Event.isExec]

lemma rdiffRun_dry (c : Config) (env : TransportEnv) :
    (rdiffRun c true env).2 = none ∧
    ∀ e ∈ (rdiffRun c true env).1, e.isExec = false := by
  unfold rdiffRun
  by_cases h1 : c.Exclude ≠ [] <;> by_cases h2 : c.Include ≠ [] <;>
    simp [h1, h2, Event.isExec]

lemma customRun_dry (c : Config) (env : TransportEnv) :
    (customRun c true env).2 = none ∧
    ∀ e ∈ (customRun c true env).1, e.isExec = false := by
  unfold customRun
  simp

/-- In dry-run mode every transport returns success and spawns nothing. -/
lemma transportRun_dry (c : Config) (env : TransportEnv) :
    (transportRun c true env).2 = none ∧
    ∀ e ∈ (transportRun c true env).1, e.isExec = false := by
  unfold transportRun
  split_ifs with h1 h2 h3 h4 h5
  · exact rcloneRun_dry c env
  · exact rdiffRun_dry c env
  · exact resticRun_dry c env
  · exact rsyncRun_dry c env
  · exact customRun_dry c env
  · exact ⟨rfl, by simp⟩

/-- In dry-run mode the transport and hook phase spawns nothing. -/
lemma phase_dry_noexec (c : Config) (env : Env) :
    ∀ e ∈ (hookAndTransportPhase c true env [] []).1, e.isExec = false := by
  intro e he
  have hdry := transportRun_dry c env.te
  by_cases hk : knownTransport c = true
  · cases hcr : newTransportErr c with
    | some msg => simp [hookAndTransportPhase, hk, hcr] at he
    | none =>
      simp [hookAndTransportPhase, hk, hcr, hdry.1] at he
      exact hdry.2 e he
  · simp [hookAndTransportPhase, hk] at he

/-- C4: with dry_run = true no process is spawned — for any configuration
(any transport, with or without device or LUKS destinations and hooks) the
trace of the whole run contains no executor invocation. -/
theorem dry_run_never_spawns (c : Config) (env : Env) :
    ∀ e ∈ (backupRun c true env).1, e.isExec = false :=
  fun e he => phase_dry_noexec (dryRunPlaceholders c true) env e he

/-- An orchestrator environment where everything succeeds and the OS hands
out /tmp/exclude123 and /tmp/mnt0 for temporary names. -/
def envOk : Env :=
  ⟨some true, false, .ok, .ok, .ok, .ok, "/tmp/mnt0", .ok, .ok, .ok,
   ⟨"/tmp/exclude123", "", "", "", fun _ => .ok⟩⟩

/-- Witness for C4: a dry restic run with an exclude list still writes the
pattern file (a non-process event), and that event is not a spawn. -/
theorem dry_run_never_spawns_witness :
    Event.writeFile "/tmp/exclude123" "x/foo\n" ∈
      (backupRun cfgResticExclude true envOk).1 ∧
    (Event.writeFile "/tmp/exclude123" "x/foo\n").isExec = false :=
  ⟨by decide, dry_run_never_spawns cfgResticExclude envOk _ (by decide)⟩

/-! ## C6 — teardown order on every exit path -/

lemma luksDevfile_ne_empty (c : Config) : luksDevfile c ≠ "" := by
  intro h
  have hd := congrArg String.data h
  unfold luksDevfile at hd
  rw [String.data_append] at hd
  rcases List.append_eq_nil.mp hd with ⟨h1, _⟩
  revert h1
  decide

lemma luksStep_ok (c : Config) (env : Env) (hl : c.LuksDestDev ≠ "")
    (hstat : env.statDevMapperExists = false)
    (hopen : env.luksOpenOutcome = .ok) :
    luksStep c env =
      ⟨[Event.exec "LUKS_OPEN"
          ((if c.LuksKeyFile ≠ "" then
              ["cryptsetup", "--key-file=" ++ c.LuksKeyFile]
            else ["cryptsetup"]) ++
            ["luksOpen", c.LuksDestDev, "netbackup_" ++ c.Name])],
        { c with DestDev := luksDevfile c }, luksTeardown c, none⟩ := by
  unfold luksStep
  rw [if_neg hl]
  simp [hstat, hopen]

lemma fsStep_ok (c : Config) (env : Env)
    (hfs : c.FSCleanup = false ∨ (env.fsckOutcome = .ok ∧ env.tunefsOutcome = .ok)) :
    (fsStep c env).2 = none := by
  unfold fsStep
  rcases hfs with h | ⟨h1, h2⟩
  · simp [h]
  · simp only [h1, h2]
    split <;> simp

/-- Under a successful LUKS open, the preparation block's teardown list is
determined by the filesystem-cleanup and mount outcomes. -/
lemma prepare_td_luks (c : Config) (env : Env)
    (hsrc : c.SourceIsMountPoint = false ∨ env.isMountedResult = some true)
    (hl : c.LuksDestDev ≠ "") (hstat : env.statDevMapperExists = false)
    (hopen : env.luksOpenOutcome = .ok) :
    ((c.FSCleanup = false ∨ (env.fsckOutcome = .ok ∧ env.tunefsOutcome = .ok)) →
      (prepare c env).td =
        (if env.mountOutcome = .ok then
          mountTeardown (luksDevfile c) env.mountTmpdir else []) ++
          luksTeardown c) ∧
    (c.FSCleanup = true → ¬(env.fsckOutcome = .ok ∧ env.tunefsOutcome = .ok) →
      (prepare c env).td = luksTeardown c) := by
  have hcond : ¬(c.SourceIsMountPoint ∧ env.isMountedResult ≠ some true) := by
    rcases hsrc with h | h <;> simp [h]
  constructor
  · intro hfs
    unfold prepare
    rw [if_neg hcond, luksStep_ok c env hl hstat hopen]
    have h2 : (fsStep { c with DestDev := luksDevfile c } env).2 = none :=
      fsStep_ok _ env (by simpa using hfs)
    simp only [h2]
    unfold mountStep
    rw [if_neg (by simpa using luksDevfile_ne_empty c)]
    by_cases hm : env.mountOutcome = .ok <;> simp [hm]
  · intro hclean hfail
    unfold prepare
    rw [if_neg hcond, luksStep_ok c env hl hstat hopen]
    have h2 : (fsStep { c with DestDev := luksDevfile c } env).2 =
        some (BackupErr.fsCleanupFailed
          (if env.fsckOutcome ≠ .ok then env.fsckOutcome else env.tunefsOutcome)) := by
      unfold fsStep
      by_cases hf : env.fsckOutcome = ExecResult.ok
      · have ht : env.tunefsOutcome ≠ ExecResult.ok := fun h => hfail ⟨hf, h⟩
        simp [hclean, hf, ht]
      · simp [hclean, hf]
    simp only [h2]

/-- Every branch of the transport and hook phase ends with the registered
teardowns. -/
lemma phase_trace_td (c : Config) (d : Bool) (env : Env) (pevs td : List Event) :
    ∃ q, (hookAndTransportPhase c d env pevs td).1 = q ++ td := by
  unfold hookAndTransportPhase
  rcases htr : (transportRun c d env.te).2 with _ | r <;>
    (repeat' split) <;>
    (try simp only [htr]) <;>
    exact ⟨_, rfl⟩

/-- In a non-dry run, the whole trace ends with the teardowns the
preparation block registered — on every exit path. -/
lemma backupRun_td (c : Config) (env : Env) :
    ∃ q, (backupRun c false env).1 = q ++ (prepare c env).td := by
  have hplace : dryRunPlaceholders c false = c := by
    unfold dryRunPlaceholders
    simp
  unfold backupRun
  rw [hplace]
  cases hperr : (prepare c env).err with
  | some e => exact ⟨(prepare c env).evs, by simp [hperr]⟩
  | none =>
    obtain ⟨q, hq⟩ :=
      phase_trace_td (prepare c env).cfg false env (prepare c env).evs (prepare c env).td
    exact ⟨q, by simp [hperr, hq]⟩

/-- C6: after a successful LUKS open, the teardowns registered at
acquisition close the run in strict reverse order of acquisition on every
exit path.  When the mount also succeeded (and whatever the transport and
hooks then do), the trace ends with sleep-2s, umount of the mapper device,
removal of the temporary mount directory, sleep-2s, and LUKS close, in that
order; when the mount fails, or the filesystem cleanup before it fails, the
trace ends with sleep-2s and LUKS close.  Each 2-second sleep immediately
precedes its release. -/
theorem teardown_reverse_order_every_path (c : Config) (env : Env)
    (hsrc : c.SourceIsMountPoint = false ∨ env.isMountedResult = some true)
    (hl : c.LuksDestDev ≠ "") (hstat : env.statDevMapperExists = false)
    (hopen : env.luksOpenOutcome = .ok) :
    ((c.FSCleanup = false ∨ (env.fsckOutcome = .ok ∧ env.tunefsOutcome = .ok)) →
      env.mountOutcome = .ok →
      ∃ q, (backupRun c false env).1 =
        q ++ ([Event.sleep 2,
               Event.exec "UMOUNT" ["umount", luksDevfile c],
               Event.remove env.mountTmpdir,
               Event.sleep 2,
               Event.exec "LUKS_CLOSE" ["cryptsetup", "luksClose", luksDevfile c]])) ∧
    ((c.FSCleanup = false ∨ (env.fsckOutcome = .ok ∧ env.tunefsOutcome = .ok)) →
      env.mountOutcome ≠ .ok →
      ∃ q, (backupRun c false env).1 =
        q ++ [Event.sleep 2,
              Event.exec "LUKS_CLOSE" ["cryptsetup", "luksClose", luksDevfile c]]) ∧
    (c.FSCleanup = true → ¬(env.fsckOutcome = .ok ∧ env.tunefsOutcome = .ok) →
      ∃ q, (backupRun c false env).1 =
        q ++ [Event.sleep 2,
              Event.exec "LUKS_CLOSE" ["cryptsetup", "luksClose", luksDevfile c]]) := by
  obtain ⟨q0, hq0⟩ := backupRun_td c env
  have htd := prepare_td_luks c env hsrc hl hstat hopen
  refine ⟨?_, ?_, ?_⟩
  · intro hfs hm
    refine ⟨q0, ?_⟩
    rw [hq0, htd.1 hfs, if_pos hm]
    rfl
  · intro hfs hm
    refine ⟨q0, ?_⟩
    rw [hq0, htd.1 hfs, if_neg hm]
    rfl
  · intro hclean hfail
    refine ⟨q0, ?_⟩
    rw [hq0, htd.2 hclean hfail]
    rfl

/-- A configuration backing up to a LUKS destination with the rsync
transport. -/
def cfgLuks : Config :=
  { cfg0 with
      Name := "x"
      Transport := "rsync"
      SourceDir := "/tmp/a"
      LuksDestDev := "/dev/sdx1"
      LuksKeyFile := "/etc/kf" }

/-- Witness for C6: with a successful preparation, the concrete run's trace
ends with the five teardown events in reverse acquisition order. -/
theorem teardown_reverse_order_every_path_witness :
    ∃ q, (backupRun cfgLuks false envOk).1 =
      q ++ ([Event.sleep 2,
             Event.exec "UMOUNT" ["umount", luksDevfile cfgLuks],
             Event.remove "/tmp/mnt0",
             Event.sleep 2,
             Event.exec "LUKS_CLOSE"
               ["cryptsetup", "luksClose", luksDevfile cfgLuks]]) :=
  (teardown_reverse_order_every_path cfgLuks envOk (Or.inl rfl) (by decide)
    rfl rfl).1 (Or.inl rfl) rfl

/-! ## C2 — the fail-hook on transport failure -/

/-- In a non-dry run whose preparation succeeded, the rest of the run is the
transport and hook phase on the prepared configuration. -/
lemma backupRun_prep_none (c : Config) (env : Env)
    (hp : (prepare c env).err = none) :
    backupRun c false env =
      hookAndTransportPhase (prepare c env).cfg false env
        (prepare c env).evs (prepare c env).td := by
  have hplace : dryRunPlaceholders c false = c := by
    unfold dryRunPlaceholders
    simp
  unfold backupRun
  rw [hplace]
  simp only [Bool.false_eq_true, if_false, hp]

/-- C2: when the transport fails and `fail_command` is set, the fail-hook
runs through the shell, and the reported outcome of the run is the
transport's failure.  The fail-hook's own outcome (`env.failOutcome`) is
unconstrained here, so the conclusion holds whether or not the hook itself
fails: its failure is never surfaced.  (Fail-hook handling is modelled from
the spec, see `failHookEvents`.) -/
theorem transport_failure_runs_fail_hook (c : Config) (env : Env) (r : ExecResult)
    (hp : (prepare c env).err = none)
    (hk : knownTransport (prepare c env).cfg = true)
    (hcr : newTransportErr (prepare c env).cfg = none)
    (hpre : (prepare c env).cfg.PreCommand = "" ∨ env.preOutcome = .ok)
    (htr : (transportRun (prepare c env).cfg false env.te).2 = some r)
    (hfail : (prepare c env).cfg.FailCommand ≠ "") :
    (backupRun c false env).2 = some (.backupFailed r) ∧
    Event.exec "FAIL" (withShell env.te.shellEnv (prepare c env).cfg.FailCommand) ∈
      (backupRun c false env).1 := by
  rw [backupRun_prep_none c env hp]
  unfold hookAndTransportPhase
  rw [if_neg (by simp [hk]), hcr]
  have hprecond : ¬((prepare c env).cfg.PreCommand ≠ "" ∧ ¬(false = true) ∧
      env.preOutcome ≠ ExecResult.ok) := by
    rcases hpre with h | h <;> simp [h]
  rw [if_neg hprecond]
  simp only [htr]
  refine ⟨trivial, ?_⟩
  have hmem : Event.exec "FAIL"
      (withShell env.te.shellEnv (prepare c env).cfg.FailCommand) ∈
      failHookEvents (prepare c env).cfg env.te.shellEnv := by
    unfold failHookEvents
    rw [if_pos hfail]
    exact List.mem_singleton.mpr rfl
  simp only [List.mem_append]
  exact Or.inl (Or.inr hmem)

/-- A local rsync specification with a fail-hook configured. -/
def cfgFailHook : Config :=
  { cfg0 with
      Transport := "rsync"
      SourceDir := "/tmp/a"
      DestDir := "/tmp/b"
      FailCommand := "notify-send failed" }

/-- An orchestrator environment whose transport child exits with code 23. -/
def envTransportFails : Env :=
  ⟨some true, false, .ok, .ok, .ok, .ok, "/tmp/mnt0", .ok, .ok, .failed,
   ⟨"", "", "", "", fun _ => .exited 23⟩⟩

/-- Witness for C2: the concrete failing run executes the fail-hook through
the shell and reports the transport's failure (here the fail-hook itself
also fails, and is still not surfaced). -/
theorem transport_failure_runs_fail_hook_witness :
    (backupRun cfgFailHook false envTransportFails).2 =
      some (.backupFailed (.exited 23)) ∧
    Event.exec "FAIL" ["/bin/sh", "-c", "--", "notify-send failed"] ∈
      (backupRun cfgFailHook false envTransportFails).1 :=
  transport_failure_runs_fail_hook cfgFailHook envTransportFails (.exited 23)
    rfl (by decide) (by decide) (Or.inl rfl) (by decide) (by decide)

/-! ## C7 and C8 — lemmas about the metrics writer -/

lemma splitOnChar_ne_nil (sep : Char) (l : List Char) : splitOnChar sep l ≠ [] := by
  cases l with
  | nil => simp [splitOnChar]
  | cons a rest =>
    simp only [splitOnChar]
    by_cases ha : a = sep
    · simp [ha]
    · rw [if_neg ha]
      cases splitOnChar sep rest <;> simp

lemma not_mem_of_mem_splitOnChar (sep : Char) (l : List Char) :
    ∀ p ∈ splitOnChar sep l, sep ∉ p := by
  induction l with
  | nil =>
    intro p hp
    simp only [splitOnChar, List.mem_singleton] at hp
    simp [hp]
  | cons a rest ih =>
    intro p hp
    simp only [splitOnChar] at hp
    by_cases ha : a = sep
    · rw [if_pos ha] at hp
      rcases List.mem_cons.mp hp with rfl | hp'
      · simp
      · exact ih p hp'
    · rw [if_neg ha] at hp
      cases hsplit : splitOnChar sep rest with
      | nil => exact absurd hsplit (splitOnChar_ne_nil sep rest)
      | cons h t =>
        rw [hsplit] at hp
        rcases List.mem_cons.mp hp with rfl | hp'
        · intro hmem
          rcases List.mem_cons.mp hmem with rfl | hmem'
          · exact ha rfl
          · exact ih h (by rw [hsplit]; exact List.mem_cons_self h t) hmem'
        · exact ih p (by rw [hsplit]; exact List.mem_cons_of_mem h hp')

lemma splitOnChar_append_cons (sep : Char) (l₁ l₂ : List Char) (h : sep ∉ l₁) :
    splitOnChar sep (l₁ ++ sep :: l₂) = l₁ :: splitOnChar sep l₂ := by
  induction l₁ with
  | nil => simp [splitOnChar]
  | cons a as ih =>
    have ha : ¬ a = sep := fun hEq => h (hEq ▸ List.mem_cons_self a as)
    have hin : sep ∉ as := fun hm => h (List.mem_cons_of_mem a hm)
    simp only [List.cons_append, splitOnChar, List.append_eq]
    rw [if_neg ha, ih hin]

lemma splitOnChar_flatten (sep : Char) (ls : List (List Char)) (r : List Char)
    (h : ∀ l ∈ ls, sep ∉ l) :
    splitOnChar sep ((ls.map (fun l => l ++ [sep])).flatten ++ r) =
      ls ++ splitOnChar sep r := by
  induction ls with
  | nil => simp
  | cons a as ih =>
    have ha : sep ∉ a := h a (List.mem_cons_self a as)
    have has : ∀ l ∈ as, sep ∉ l := fun l hl => h l (List.mem_cons_of_mem a hl)
    simp only [List.map_cons, List.flatten_cons, List.append_assoc,
      List.singleton_append, List.cons_append, List.nil_append]
    rw [splitOnChar_append_cons sep a
      ((List.map (fun l => l ++ [sep]) as).flatten ++ r) ha, ih has]

lemma digitChar_isDigit : ∀ m : Nat, m < 10 → (Nat.digitChar m).isDigit = true := by
  decide

lemma toDigitsCore_digits : ∀ (fuel n : Nat) (ds : List Char),
    (∀ ch ∈ ds, ch.isDigit = true) →
    ∀ ch ∈ Nat.toDigitsCore 10 fuel n ds, ch.isDigit = true := by
  intro fuel
  induction fuel with
  | zero => intro n ds hds ch hch; exact hds ch hch
  | succ f ih =>
    intro n ds hds ch hch
    have hd : (Nat.digitChar (n % 10)).isDigit = true :=
      digitChar_isDigit _ (Nat.mod_lt n (by norm_num))
    have hcons : ∀ c ∈ Nat.digitChar (n % 10) :: ds, c.isDigit = true := by
      intro c hc
      rcases List.mem_cons.mp hc with rfl | hc'
      · exact hd
      · exact hds c hc'
    simp only [Nat.toDigitsCore] at hch
    by_cases h0 : n / 10 = 0
    · rw [if_pos h0] at hch
      exact hcons ch hch
    · rw [if_neg h0] at hch
      exact ih _ _ hcons ch hch

lemma toString_nat_digits (n : Nat) :
    ∀ ch ∈ (toString n).data, ch.isDigit = true := by
  intro ch hch
  exact toDigitsCore_digits (n + 1) n [] (by intro c hc; cases hc) ch hch

lemma newline_not_isDigit : ('\n').isDigit = false := by decide

lemma newline_not_mem_toString (n : Nat) : '\n' ∉ (toString n).data := by
  intro h
  have := toString_nat_digits n '\n' h
  simp [newline_not_isDigit] at this

lemma newline_not_mem_nodeRecord (name : String) (now : Nat)
    (hname : ∀ ch ∈ name.data, ch.isAlphanum = true) :
    '\n' ∉ (nodeRecord name now).data := by
  unfold nodeRecord
  intro hmem
  simp only [String.data_append, List.mem_append] at hmem
  rcases hmem with ((h1 | h2) | h3) | h4
  · revert h1; decide
  · exact absurd (hname _ h2) (by decide)
  · revert h3; decide
  · exact newline_not_mem_toString now h4

lemma dropLit_self_append (p r : List Char) : dropLit p (p ++ r) = some r := by
  induction p with
  | nil => rfl
  | cons a as ih => simp [dropLit, ih]

lemma record_decomp (name : String) (now : Nat) :
    (nodeRecord name now).data =
      "backup".data ++ '\x7b' :: ("name=\"".data ++ (name.data ++
        ('\"' :: (", job=\"netbackup\", status=\"success\"\x7d ".data ++
          (toString now).data)))) := by
  unfold nodeRecord
  simp [String.data_append, List.append_assoc]

lemma record_matchFrom (name : String) (now : Nat) :
    matchFrom name (nodeRecord name now).data = true := by
  unfold matchFrom
  simp only [String.toList]
  simp only [record_decomp name now, dropLit_self_append]
  rw [List.dropWhile_cons, if_neg (by decide : ¬ (isGoWS '\x7b' = true))]
  dsimp only
  rw [show (decide (('\x7b' : Char) = '\x7b')) = true from by decide,
    Bool.true_and]
  unfold hasSub
  rw [List.any_eq_true]
  refine ⟨_, (List.mem_tails _ _).mpr (List.suffix_refl _), ?_⟩
  simp only [String.toList, String.data_append, List.append_assoc,
    List.cons_append, List.nil_append]
  simp only [List.isPrefixOf_cons₂_self]
  exact List.isPrefixOf_iff_prefix.mpr
    ((List.prefix_append_right_inj _).mpr ⟨_, rfl⟩)

/-- The appended record is matched by the regular expression compiled for
its own name. -/
lemma record_lineMatches (name : String) (now : Nat) :
    lineMatchesL name (nodeRecord name now).data = true := by
  unfold lineMatchesL
  rw [List.any_eq_true]
  exact ⟨(nodeRecord name now).data,
    (List.mem_tails _ _).mpr (List.suffix_refl _), record_matchFrom name now⟩

/-- The newline-split of the writer's output: the kept lines, then the new
record, then the empty fragment after the final newline. -/
lemma splitOnChar_writeNode (data name : String) (now : Nat)
    (hname : ∀ ch ∈ name.data, ch.isAlphanum = true) :
    splitOnChar '\n' (writeNodeTextFile data name now).data =
      ((splitOnChar '\n' data.toList).filter
        (fun l => !l.isEmpty && !lineMatchesL name l)) ++
        [(nodeRecord name now).data, []] := by
  unfold writeNodeTextFile
  dsimp only
  have hkept : ∀ l ∈ (splitOnChar '\n' data.toList).filter
      (fun l => !l.isEmpty && !lineMatchesL name l), '\n' ∉ l := by
    intro l hl
    exact not_mem_of_mem_splitOnChar '\n' data.toList l (List.mem_filter.mp hl).1
  rw [splitOnChar_flatten '\n' _ _ hkept]
  simp only [String.toList]
  rw [splitOnChar_append_cons '\n' _ []
    (newline_not_mem_nodeRecord name now hname)]
  rfl

/-- The lines of the writer's output: the kept lines and the new record. -/
lemma fileLinesL_writeNode (data name : String) (now : Nat)
    (hname : ∀ ch ∈ name.data, ch.isAlphanum = true) :
    fileLinesL (writeNodeTextFile data name now).data =
      ((splitOnChar '\n' data.toList).filter
        (fun l => !l.isEmpty && !lineMatchesL name l)) ++
        [(nodeRecord name now).data] := by
  unfold fileLinesL
  dsimp only
  rw [splitOnChar_writeNode data name now hname]
  rw [show ((splitOnChar '\n' data.toList).filter
      (fun l => !l.isEmpty && !lineMatchesL name l)) ++
      [(nodeRecord name now).data, []] =
    (((splitOnChar '\n' data.toList).filter
      (fun l => !l.isEmpty && !lineMatchesL name l)) ++
      [(nodeRecord name now).data]) ++ [[]] from by simp]
  rw [List.getLast?_concat, List.dropLast_concat]
  simp

lemma filter_fileLinesL (l : List Char) (p : List Char → Bool)
    (hp : p [] = false) :
    (fileLinesL l).filter p = (splitOnChar '\n' l).filter p := by
  unfold fileLinesL
  dsimp only
  split
  next h =>
    obtain ⟨ys, hys⟩ := List.getLast?_eq_some_iff.mp h
    rw [hys, List.dropLast_concat, List.filter_append]
    simp [hp]
  next h => rfl

lemma mk_beq_empty (l : List Char) : (String.mk l == "") = l.isEmpty := by
  cases l with
  | nil => rfl
  | cons a as =>
    simp only [List.isEmpty_cons]
    rw [beq_eq_false_iff_ne]
    intro h
    have hd := congrArg String.data h
    simp at hd

/-! ## C7 — the claim as stated, refuted, and the amended form -/

/-- C7 (counterexample): a previous file containing an empty line refutes
the claim as stated — the write drops the empty line, so the new file's
lines are not the old lines minus the matching ones plus the record. -/
theorem metrics_write_preserves_lines_counterexample :
    ¬ (fileLines (writeNodeTextFile "a\n\nb\n" "x" 100) =
      ((fileLines "a\n\nb\n").filter (fun l => !(lineMatches "x" l))) ++
        [nodeRecord "x" 100]) := by
  decide

/-- String-level form of `fileLinesL_writeNode`. -/
lemma fileLines_writeNode (data name : String) (now : Nat)
    (hname : ∀ ch ∈ name.data, ch.isAlphanum = true) :
    fileLines (writeNodeTextFile data name now) =
      ((splitOnChar '\n' data.toList).filter
        (fun l => !l.isEmpty && !lineMatchesL name l)).map String.mk ++
        [nodeRecord name now] := by
  have hmain := fileLinesL_writeNode data name now hname
  unfold fileLines
  simp only [String.toList] at hmain ⊢
  rw [hmain, List.map_append]
  rfl

/-- The claim-side filter over a file's lines coincides with the writer's
internal kept-lines computation. -/
lemma fileLines_filter_kept (data name : String) :
    (fileLines data).filter
        (fun l => !(l == "") && !(lineMatches name l)) =
      ((splitOnChar '\n' data.toList).filter
        (fun l => !l.isEmpty && !lineMatchesL name l)).map String.mk := by
  have hcongr : (fileLinesL data.toList).filter
        ((fun l => !(l == "") && !(lineMatches name l)) ∘ String.mk) =
      (fileLinesL data.toList).filter
        (fun l => !l.isEmpty && !lineMatchesL name l) := by
    apply List.filter_congr
    intro x hx
    simp only [Function.comp_apply, mk_beq_empty]
    rfl
  unfold fileLines
  rw [List.filter_map, hcongr, filter_fileLinesL data.toList _ (by rfl)]

/-- After a write, the lines matching the name's regular expression are
exactly the fresh record. -/
lemma fileLines_writeNode_filter_match (data name : String) (now : Nat)
    (hname : ∀ ch ∈ name.data, ch.isAlphanum = true) :
    (fileLines (writeNodeTextFile data name now)).filter
      (fun l => lineMatches name l) = [nodeRecord name now] := by
  rw [fileLines_writeNode data name now hname, List.filter_append]
  have hk : (((splitOnChar '\n' data.toList).filter
        (fun l => !l.isEmpty && !lineMatchesL name l)).map String.mk).filter
        (fun l => lineMatches name l) = [] := by
    rw [List.filter_map]
    rw [show ((splitOnChar '\n' data.toList).filter
        (fun l => !l.isEmpty && !lineMatchesL name l)).filter
          ((fun l => lineMatches name l) ∘ String.mk) = [] from ?_]
    · rfl
    · rw [List.filter_eq_nil_iff]
      intro x hx hmatch
      have hpred := (List.mem_filter.mp hx).2
      rw [Bool.and_eq_true] at hpred
      have hfalse : lineMatchesL name x = false := by
        rcases hpred with ⟨_, h⟩
        revert h
        cases lineMatchesL name x <;> simp
      rw [show ((fun l => lineMatches name l) ∘ String.mk) x =
        lineMatchesL name x from rfl] at hmatch
      rw [hfalse] at hmatch
      cases hmatch
  have hr : ([nodeRecord name now] : List String).filter
      (fun l => lineMatches name l) = [nodeRecord name now] := by
    have hm : lineMatches name (nodeRecord name now) = true := by
      unfold lineMatches
      exact record_lineMatches name now
    simp [List.filter, hm]
  rw [hk, hr, List.nil_append]

/-- Re-splitting a written file and filtering with the same name recovers
exactly the kept lines: the fresh record and the trailing empty fragment
are dropped again. -/
lemma filter_split_writeNode (data name : String) (now : Nat)
    (hname : ∀ ch ∈ name.data, ch.isAlphanum = true) :
    (splitOnChar '\n' (writeNodeTextFile data name now).toList).filter
        (fun l => !l.isEmpty && !lineMatchesL name l) =
      (splitOnChar '\n' data.toList).filter
        (fun l => !l.isEmpty && !lineMatchesL name l) := by
  simp only [String.toList]
  rw [splitOnChar_writeNode data name now hname, List.filter_append]
  rw [List.filter_eq_self.mpr (fun x hx => (List.mem_filter.mp hx).2)]
  rw [show List.filter (fun l => !l.isEmpty && !lineMatchesL name l)
      [(nodeRecord name now).data, []] = [] from ?_]
  · exact List.append_nil _
  · simp [List.filter, record_lineMatches name now]

/-- C7 (amended): a successful metrics write leaves the file with exactly
one record for the supplied name, and preserves every other *non-empty*
line of the previous contents unchanged and in order (empty lines are
dropped). -/
theorem metrics_write_exactly_one_record (data name : String) (now : Nat)
    (hname : ∀ ch ∈ name.data, ch.isAlphanum = true) :
    fileLines (writeNodeTextFile data name now) =
      ((fileLines data).filter
        (fun l => !(l == "") && !(lineMatches name l))) ++ [nodeRecord name now] ∧
    (fileLines (writeNodeTextFile data name now)).filter
      (fun l => lineMatches name l) = [nodeRecord name now] := by
  constructor
  · rw [fileLines_writeNode data name now hname, fileLines_filter_kept]
  · exact fileLines_writeNode_filter_match data name now hname

/-- Witness for C7 (amended) at a concrete file, name and time. -/
theorem metrics_write_exactly_one_record_witness :
    fileLines (writeNodeTextFile "a\n\nb\n" "x" 100) =
      ((fileLines "a\n\nb\n").filter
        (fun l => !(l == "") && !(lineMatches "x" l))) ++ [nodeRecord "x" 100] ∧
    (fileLines (writeNodeTextFile "a\n\nb\n" "x" 100)).filter
      (fun l => lineMatches "x" l) = [nodeRecord "x" 100] :=
  metrics_write_exactly_one_record "a\n\nb\n" "x" 100 (by decide)

/-! ## C8 — repeated writes: stable line count, non-decreasing timestamp -/

/-- C8: writing twice with the same name (at non-decreasing clock readings
t1 ≤ t2) leaves the line count unchanged from the first write to the
second, and the timestamp recorded for the name goes from t1 to t2, so it
is non-decreasing across the calls. -/
theorem metrics_write_stable_count_monotone_time (data name : String)
    (t1 t2 : Nat) (hname : ∀ ch ∈ name.data, ch.isAlphanum = true)
    (ht : t1 ≤ t2) :
    (fileLines (writeNodeTextFile (writeNodeTextFile data name t1) name t2)).length =
      (fileLines (writeNodeTextFile data name t1)).length ∧
    ∃ ts1 ts2,
      (fileLines (writeNodeTextFile data name t1)).filter
        (fun l => lineMatches name l) = [nodeRecord name ts1] ∧
      (fileLines (writeNodeTextFile (writeNodeTextFile data name t1) name t2)).filter
        (fun l => lineMatches name l) = [nodeRecord name ts2] ∧
      ts1 ≤ ts2 := by
  refine ⟨?_, t1, t2, fileLines_writeNode_filter_match data name t1 hname,
    fileLines_writeNode_filter_match (writeNodeTextFile data name t1) name t2 hname,
    ht⟩
  rw [fileLines_writeNode (writeNodeTextFile data name t1) name t2 hname,
    fileLines_writeNode data name t1 hname,
    filter_split_writeNode data name t1 hname]
  simp [List.length_append]

/-- Witness for C8 at a concrete file, name and pair of times. -/
theorem metrics_write_stable_count_monotone_time_witness :
    (fileLines (writeNodeTextFile (writeNodeTextFile "a\nb\n" "x" 100) "x" 101)).length =
      (fileLines (writeNodeTextFile "a\nb\n" "x" 100)).length ∧
    ∃ ts1 ts2,
      (fileLines (writeNodeTextFile "a\nb\n" "x" 100)).filter
        (fun l => lineMatches "x" l) = [nodeRecord "x" ts1] ∧
      (fileLines (writeNodeTextFile (writeNodeTextFile "a\nb\n" "x" 100) "x" 101)).filter
        (fun l => lineMatches "x" l) = [nodeRecord "x" ts2] ∧
      ts1 ≤ ts2 :=
  metrics_write_stable_count_monotone_time "a\nb\n" "x" 100 101 (by decide)
    (by decide)

end Netbackup
